import Mathlib

/-!
Shallow embedding of the interactive geometry core of the image-segmentation
application (src/script.js): the `ImageManager` viewport transform, the
`SelectionManager` selection store and the resize/draw-commit paths of the
`EventHandler`.  JavaScript numbers are embedded as rationals, JavaScript
exceptions as `Except`, and the mutable class instances as explicit state
records.  Line references are to src/script.js.
-/

namespace ImageSeg

/-- A point, in canvas (surface) or image coordinates. -/
structure Pt where
  x : ℚ
  y : ℚ
deriving Repr, DecidableEq

/-! ### SelectionManager (script.js lines 1759-1853)

A selection rectangle.  The JavaScript object also carries a `created`
ISO-timestamp string, which is presentation metadata never read by any
operation; it is omitted from the embedding. -/

structure Selection where
  id : String
  x : ℚ
  y : ℚ
  width : ℚ
  height : ℚ
  active : Bool
deriving Repr, DecidableEq

/-- State of a `SelectionManager` instance (constructor, lines 1760-1763). -/
structure SelectionStore where
  selections : List Selection
  activeSelectionId : Option String
deriving Repr, DecidableEq

/-- The freshly constructed store: `this.selections = []`,
`this.activeSelectionId = null`. -/
def SelectionStore.init : SelectionStore := ⟨[], none⟩

/-- The id format used throughout: `` `selection_${n}` `` (lines 1769, 1813). -/
def mkSelId (n : Nat) : String := "selection_" ++ toString n

/-- Embeds `this.selections.forEach(s => s.active = false)` (lines 1826, 1843). -/
def deactivateAll (l : List Selection) : List Selection :=
  l.map fun s => { s with active := false }

/-- Embeds `find` + in-place `active = true` on the first selection matching `id`
(lines 1827-1829): only the first match is flipped. -/
def activateFirst (id : String) : List Selection → List Selection
  | [] => []
  | s :: rest =>
      if s.id = id then { s with active := true } :: rest
      else s :: activateFirst id rest

/-- Embeds `setActiveSelection(id)` (lines 1825-1832): deactivate every selection,
then, if a selection with this id exists, activate it and store its id;
otherwise `activeSelectionId` keeps its previous value. -/
def SelectionStore.setActiveSelection (st : SelectionStore) (id : String) :
    SelectionStore :=
  let cleared := deactivateAll st.selections
  if (cleared.find? fun s => s.id = id).isSome then
    ⟨activateFirst id cleared, some id⟩
  else
    ⟨cleared, st.activeSelectionId⟩

/-- The throw message of `createSelection` (line 1780). -/
def tooSmallMsg : String := "选择框尺寸太小"

/-- The selection object built by `createSelection` (lines 1767-1776):
id `selection_${count+1}`, corners normalized with `min`/`abs`. -/
def newSel (st : SelectionStore) (startX startY endX endY : ℚ) : Selection :=
  { id := mkSelId (st.selections.length + 1)
    x := min startX endX
    y := min startY endY
    width := |endX - startX|
    height := |endY - startY|
    active := false }

/-- Embeds `createSelection(startX, startY, endX, endY)` (lines 1765-1789):
normalizes the two corners, assigns id `selection_${count+1}`, throws when
the normalized width or height is `< 1` (before any state change), otherwise
appends the new selection and makes it active via `setActiveSelection`. -/
def SelectionStore.createSelection (st : SelectionStore)
    (startX startY endX endY : ℚ) : Except String SelectionStore :=
  let sel := newSel st startX startY endX endY
  if sel.width < 1 ∨ sel.height < 1 then
    Except.error tooSmallMsg
  else
    Except.ok (SelectionStore.setActiveSelection
      ⟨st.selections ++ [sel], st.activeSelectionId⟩ sel.id)

/-- A partial-bounds record for `updateSelection`: the geometric fields that
the two call sites (lines 2125-2128 and 2515) merge into a selection. -/
structure Bounds where
  x : Option ℚ
  y : Option ℚ
  width : Option ℚ
  height : Option ℚ
deriving Repr, DecidableEq

/-- Embeds `Object.assign(selection, bounds)` restricted to the geometric fields. -/
def assignBounds (s : Selection) (b : Bounds) : Selection :=
  { s with
    x := b.x.getD s.x
    y := b.y.getD s.y
    width := b.width.getD s.width
    height := b.height.getD s.height }

/-- Merge `b` into the first selection matching `id` (the `find` of
line 1792 returns the first match). -/
def updateFirst (id : String) (b : Bounds) : List Selection → List Selection
  | [] => []
  | s :: rest =>
      if s.id = id then assignBounds s b :: rest
      else s :: updateFirst id b rest

/-- Embeds `updateSelection(id, bounds)` (lines 1791-1796): merge into the matching
selection; no-op when the id is absent. -/
def SelectionStore.updateSelection (st : SelectionStore) (id : String)
    (b : Bounds) : SelectionStore :=
  ⟨updateFirst id b st.selections, st.activeSelectionId⟩

/-- The loop body of `renumberSelections` (lines 1811-1821): walk the list
with its index, rewrite each id to `selection_${index+1}`, and retarget
`activeSelectionId` when the id it points to is rewritten. -/
def renumberAux : Nat → Option String → List Selection →
    List Selection × Option String
  | _, act, [] => ([], act)
  | i, act, s :: rest =>
      let newId := mkSelId (i + 1)
      if s.id = newId then
        let p := renumberAux (i + 1) act rest
        (s :: p.1, p.2)
      else
        let act1 := if act = some s.id then some newId else act
        let p := renumberAux (i + 1) act1 rest
        ({ s with id := newId } :: p.1, p.2)

/-- Embeds `renumberSelections()` (lines 1810-1823). -/
def SelectionStore.renumberSelections (st : SelectionStore) : SelectionStore :=
  let p := renumberAux 0 st.activeSelectionId st.selections
  ⟨p.1, p.2⟩

/-- Embeds `deleteSelection(id)` (lines 1798-1808): splice out the first selection
with this id, clear `activeSelectionId` when it pointed at it, then renumber;
no-op when the id is absent. -/
def SelectionStore.deleteSelection (st : SelectionStore) (id : String) :
    SelectionStore :=
  match st.selections.findIdx? (fun s => s.id = id) with
  | none => st
  | some i =>
      SelectionStore.renumberSelections
        ⟨st.selections.eraseIdx i,
         if st.activeSelectionId = some id then none
         else st.activeSelectionId⟩

/-- Embeds `getActiveSelection()` (lines 1834-1836). -/
def SelectionStore.getActiveSelection (st : SelectionStore) :
    Option Selection :=
  st.selections.find? fun s => s.active

/-- Embeds `getAllSelections()` (lines 1838-1840). -/
def SelectionStore.getAllSelections (st : SelectionStore) : List Selection :=
  st.selections

/-- Embeds `clearActiveSelection()` (lines 1842-1845). -/
def SelectionStore.clearActiveSelection (st : SelectionStore) :
    SelectionStore :=
  ⟨deactivateAll st.selections, none⟩

/-- Embeds `reset()` (lines 1848-1852). -/
def SelectionStore.reset (_st : SelectionStore) : SelectionStore :=
  ⟨[], none⟩

/-- One store operation, for stating invariants over operation sequences. -/
inductive StoreOp where
  | create (startX startY endX endY : ℚ)
  | update (id : String) (b : Bounds)
  | delete (id : String)
  | setActive (id : String)
  | clearActive
  | reset
deriving Repr, DecidableEq

/-- A `create` operation as the store observes it: a throw leaves the store
unchanged, since the throw in `createSelection` happens before any mutation
(line 1780 precedes the `push` of line 1783). -/
def createOrKeep (st : SelectionStore) (a b c d : ℚ) : SelectionStore :=
  match st.createSelection a b c d with
  | .ok st' => st'
  | .error _ => st

/-- Apply one store operation. -/
def applyOp (st : SelectionStore) : StoreOp → SelectionStore
  | .create a b c d => createOrKeep st a b c d
  | .update id b => st.updateSelection id b
  | .delete id => st.deleteSelection id
  | .setActive id => st.setActiveSelection id
  | .clearActive => st.clearActiveSelection
  | .reset => st.reset

/-- Run a sequence of operations from the freshly constructed store. -/
def runOps (ops : List StoreOp) : SelectionStore :=
  ops.foldl applyOp SelectionStore.init

/-- The ids of the stored selections, in backing order. -/
def idsOf (st : SelectionStore) : List String :=
  st.getAllSelections.map fun s => s.id

/-- The contiguous id sequence `selection_1 .. selection_n`. -/
def canonicalIds (n : Nat) : List String :=
  (List.range n).map fun i => mkSelId (i + 1)

/-- Number of selections currently flagged active. -/
def countActive (st : SelectionStore) : Nat :=
  (st.selections.filter fun s => s.active).length

/-! ### ImageManager (script.js lines 1382-1756)

The viewport state.  `hasImage` embeds `this.image !== null`; the decoded
raster itself is only ever handed to the renderer and is not part of the
geometry. -/

structure ImgState where
  hasImage : Bool
  scale : ℚ
  offsetX : ℚ
  offsetY : ℚ
  originalWidth : ℚ
  originalHeight : ℚ
  displayWidth : ℚ
  displayHeight : ℚ
  minScale : ℚ
  maxScale : ℚ
  canvasWidth : ℚ
  canvasHeight : ℚ
deriving Repr, DecidableEq

/-- The constructor state (lines 1383-1396): no image, `scale = 1`, zero
offsets and sizes, `minScale = 0.1`, `maxScale = 5`. -/
def ImgState.initial (canvasWidth canvasHeight : ℚ) : ImgState :=
  { hasImage := false
    scale := 1
    offsetX := 0
    offsetY := 0
    originalWidth := 0
    originalHeight := 0
    displayWidth := 0
    displayHeight := 0
    minScale := 1/10
    maxScale := 5
    canvasWidth := canvasWidth
    canvasHeight := canvasHeight }

/-- Embeds `resetImageState()` (lines 1681-1690): drop the image and restore the
transform fields to their constructor values (canvas size and the scale
bounds are untouched). -/
def ImgState.resetImageState (st : ImgState) : ImgState :=
  { st with
    hasImage := false
    scale := 1
    offsetX := 0
    offsetY := 0
    originalWidth := 0
    originalHeight := 0
    displayWidth := 0
    displayHeight := 0 }

/-- Embeds `canvasToImage(canvasX, canvasY)` (lines 1622-1626): the inverse affine
map, applied unconditionally — there is no image guard in the source. -/
def ImgState.canvasToImage (st : ImgState) (p : Pt) : Pt :=
  ⟨(p.x - st.offsetX) / st.scale, (p.y - st.offsetY) / st.scale⟩

/-- Embeds `imageToCanvas(imageX, imageY)` (lines 1629-1633): the forward affine
map. -/
def ImgState.imageToCanvas (st : ImgState) (p : Pt) : Pt :=
  ⟨p.x * st.scale + st.offsetX, p.y * st.scale + st.offsetY⟩

/-- The guarded variant the specification describes for `toImageSpace`:
"valid only while an image is loaded; otherwise returns an undefined/empty
result".  Written from the spec's words, to be compared with the source's
`canvasToImage`; it is not a function of the source. -/
def canvasToImageSpec (st : ImgState) (p : Pt) : Option Pt :=
  if st.hasImage then some (st.canvasToImage p) else none

/-- The scale clamp `Math.max(minScale, Math.min(newScale, maxScale))`
(lines 1553, 1574). -/
def ImgState.clampScale (st : ImgState) (newScale : ℚ) : ℚ :=
  max st.minScale (min newScale st.maxScale)

/-- Embeds `setScaleKeepCentered(newScale)` (lines 1549-1568): no-op without an
image; clamp the scale; ignore changes below the `0.001` epsilon; otherwise
update scale and display size and re-center the image on the canvas. -/
def ImgState.setScaleKeepCentered (st : ImgState) (newScale : ℚ) : ImgState :=
  if st.hasImage = false then st
  else
    let ns := st.clampScale newScale
    if |ns - st.scale| < 1/1000 then st
    else
      let dW := st.originalWidth * ns
      let dH := st.originalHeight * ns
      { st with
        scale := ns
        displayWidth := dW
        displayHeight := dH
        offsetX := (st.canvasWidth - dW) / 2
        offsetY := (st.canvasHeight - dH) / 2 }

/-- Embeds `zoomIn()` (lines 1538-1541): multiplicative step `×1.2` capped at
`maxScale`, then `setScaleKeepCentered`. -/
def ImgState.zoomIn (st : ImgState) : ImgState :=
  st.setScaleKeepCentered (min (st.scale * (6/5)) st.maxScale)

/-- Embeds `zoomOut()` (lines 1543-1546): divide by `1.2`, floored at `minScale`,
then `setScaleKeepCentered`. -/
def ImgState.zoomOut (st : ImgState) : ImgState :=
  st.setScaleKeepCentered (max (st.scale / (6/5)) st.minScale)

/-- Iterates `zoomIn` `n` times. -/
def iterZoomIn : Nat → ImgState → ImgState
  | 0, st => st
  | n + 1, st => iterZoomIn n st.zoomIn

/-- Iterates `zoomOut` `n` times. -/
def iterZoomOut : Nat → ImgState → ImgState
  | 0, st => st
  | n + 1, st => iterZoomOut n st.zoomOut

/-- Embeds `constrainImagePosition()` (lines 1693-1725): per axis, when the display
size fits the canvas keep the offset within `±100` of the centered position,
otherwise keep at least `min(200, 0.3 × displaySize)` of the image visible. -/
def ImgState.constrainImagePosition (st : ImgState) : ImgState :=
  if st.hasImage = false then st
  else
    let ox :=
      if st.displayWidth ≤ st.canvasWidth then
        let centerX := (st.canvasWidth - st.displayWidth) / 2
        max (centerX - 100) (min st.offsetX (centerX + 100))
      else
        let minVisibleWidth := min 200 (st.displayWidth * (3/10))
        max (minVisibleWidth - st.displayWidth)
          (min st.offsetX (st.canvasWidth - minVisibleWidth))
    let oy :=
      if st.displayHeight ≤ st.canvasHeight then
        let centerY := (st.canvasHeight - st.displayHeight) / 2
        max (centerY - 100) (min st.offsetY (centerY + 100))
      else
        let minVisibleHeight := min 200 (st.displayHeight * (3/10))
        max (minVisibleHeight - st.displayHeight)
          (min st.offsetY (st.canvasHeight - minVisibleHeight))
    { st with offsetX := ox, offsetY := oy }

/-- The state `setScale` builds in lines 1580-1605, before
`constrainImagePosition` is applied: solve for the offset that keeps the
image-space point under the (defaulted) anchor fixed across the scale
change.  `ns` is the already-clamped new scale. -/
def ImgState.setScalePre (st : ImgState) (ns : ℚ) (center : Option Pt) :
    ImgState :=
  let c := center.getD ⟨st.canvasWidth / 2, st.canvasHeight / 2⟩
  let currentImageCenterX := st.offsetX + st.displayWidth / 2
  let currentImageCenterY := st.offsetY + st.displayHeight / 2
  let offsetFromImageCenterX := c.x - currentImageCenterX
  let offsetFromImageCenterY := c.y - currentImageCenterY
  let rq := ns / st.scale
  let dW := st.originalWidth * ns
  let dH := st.originalHeight * ns
  let newImageCenterX := c.x - offsetFromImageCenterX * rq
  let newImageCenterY := c.y - offsetFromImageCenterY * rq
  { st with
    scale := ns
    displayWidth := dW
    displayHeight := dH
    offsetX := newImageCenterX - dW / 2
    offsetY := newImageCenterY - dH / 2 }

/-- Embeds `setScale(newScale, centerX, centerY)` (lines 1570-1611): no-op without
an image; clamp; ignore below-epsilon changes; otherwise move the offset to
keep the anchor fixed and apply the position constraint. -/
def ImgState.setScale (st : ImgState) (newScale : ℚ) (center : Option Pt) :
    ImgState :=
  if st.hasImage = false then st
  else
    let ns := st.clampScale newScale
    if |ns - st.scale| < 1/1000 then st
    else (st.setScalePre ns center).constrainImagePosition

/-! ### EventHandler (script.js lines 2000-2562) -/

/-- The drawing-commit branch of `handleMouseUp` (lines 2152-2180):
normalize the gesture rectangle from the image-space start point and the
current mouse position; commit through `createSelection` only when the raw
size exceeds `10×10` and the size clamped to the image exceeds `5×5`.
A throw escaping `createSelection` would propagate out of the handler
(there is no try/catch), hence the `Except` result. -/
def mouseUpDrawCommit (img : ImgState) (store : SelectionStore)
    (dragStart : Pt) (mouse : Pt) : Except String SelectionStore :=
  let imageCoords := img.canvasToImage mouse
  let startX := min dragStart.x imageCoords.x
  let startY := min dragStart.y imageCoords.y
  let endX := max dragStart.x imageCoords.x
  let endY := max dragStart.y imageCoords.y
  let width := endX - startX
  let height := endY - startY
  if 10 < width ∧ 10 < height then
    let clampedStartX := max 0 (min startX img.originalWidth)
    let clampedStartY := max 0 (min startY img.originalHeight)
    let clampedEndX := max 0 (min endX img.originalWidth)
    let clampedEndY := max 0 (min endY img.originalHeight)
    let clampedWidth := clampedEndX - clampedStartX
    let clampedHeight := clampedEndY - clampedStartY
    if 5 < clampedWidth ∧ 5 < clampedHeight then
      store.createSelection clampedStartX clampedStartY clampedEndX
        clampedEndY
    else Except.ok store
  else Except.ok store

/-- The eight resize handles (`nw,ne,sw,se,n,s,e,w`, lines 2283-2292). -/
inductive Handle where
  | nw | ne | sw | se | n | s | e | w
deriving Repr, DecidableEq

/-- Embeds `activeHandle.includes('w')` (line 2495) on the handle-name strings. -/
def handleHasW : Handle → Bool
  | .nw => true
  | .sw => true
  | .w => true
  | _ => false

/-- Embeds `activeHandle.includes('n')` (line 2502) on the handle-name strings. -/
def handleHasN : Handle → Bool
  | .nw => true
  | .ne => true
  | .n => true
  | _ => false

/-- An image-space rectangle (the geometric part of a selection). -/
structure Rect where
  x : ℚ
  y : ℚ
  width : ℚ
  height : ℚ
deriving Repr, DecidableEq

/-- The handle switch of `resizeSelection` (lines 2448-2490): per-handle edge
arithmetic applied to the pre-gesture snapshot. -/
def resizeSwitch (orig : Rect) (h : Handle) (deltaX deltaY : ℚ) : Rect :=
  match h with
  | .nw => ⟨orig.x + deltaX, orig.y + deltaY,
            orig.width - deltaX, orig.height - deltaY⟩
  | .ne => ⟨orig.x, orig.y + deltaY,
            orig.width + deltaX, orig.height - deltaY⟩
  | .sw => ⟨orig.x + deltaX, orig.y,
            orig.width - deltaX, orig.height + deltaY⟩
  | .se => ⟨orig.x, orig.y,
            orig.width + deltaX, orig.height + deltaY⟩
  | .n  => ⟨orig.x, orig.y + deltaY, orig.width, orig.height - deltaY⟩
  | .s  => ⟨orig.x, orig.y, orig.width, orig.height + deltaY⟩
  | .w  => ⟨orig.x + deltaX, orig.y, orig.width - deltaX, orig.height⟩
  | .e  => ⟨orig.x, orig.y, orig.width + deltaX, orig.height⟩

/-- The minimum-size enforcement of `resizeSelection` (lines 2492-2506),
with `minSize = 10`: when a dimension falls under the floor, clamp it to the
floor, and for a `w`-containing (resp. `n`-containing) handle move `x`
(resp. `y`) so the opposite edge stays at its pre-gesture position. -/
def applyMinSize (h : Handle) (orig nb : Rect) : Rect :=
  let nb1 :=
    if nb.width < 10 then
      { nb with
        x := if handleHasW h then orig.x + orig.width - 10 else nb.x
        width := 10 }
    else nb
  if nb1.height < 10 then
    { nb1 with
      y := if handleHasN h then orig.y + orig.height - 10 else nb1.y
      height := 10 }
  else nb1

/-- The image-bounds clamp of `resizeSelection` (lines 2509-2512). -/
def clampRectToImage (nb : Rect) (imgW imgH : ℚ) : Rect :=
  let x := max 0 nb.x
  let y := max 0 nb.y
  ⟨x, y, min nb.width (imgW - x), min nb.height (imgH - y)⟩

/-- Embeds `resizeSelection(mouseX, mouseY)` (lines 2434-2516): convert the mouse
and gesture-start positions to image space, take their difference, apply the
handle arithmetic to the pre-gesture snapshot, enforce the size floor, clamp
to the image, and write the result through `updateSelection`.  The JS call
passes the whole bounds object (which also carries the snapshot's id and
active fields, equal to the target's current values during a resize
gesture); the embedding passes the four geometric fields. -/
def resizeSelection (img : ImgState) (store : SelectionStore)
    (currentId : String) (orig : Rect) (h : Handle)
    (dragStart mouse : Pt) : SelectionStore :=
  let mouseImageCoords := img.canvasToImage mouse
  let startImageCoords := img.canvasToImage dragStart
  let deltaX := mouseImageCoords.x - startImageCoords.x
  let deltaY := mouseImageCoords.y - startImageCoords.y
  let nb := clampRectToImage (applyMinSize h orig (resizeSwitch orig h deltaX deltaY))
    img.originalWidth img.originalHeight
  store.updateSelection currentId ⟨some nb.x, some nb.y, some nb.width, some nb.height⟩

/-- The contiguity invariant: the stored ids are exactly
`selection_1 .. selection_N` in backing order. -/
def Contiguous (st : SelectionStore) : Prop :=
  idsOf st = canonicalIds st.selections.length

/-- The three creates of the C8 scenario. -/
def c8_ops : List StoreOp :=
  [StoreOp.create 10 10 50 50, StoreOp.create 60 60 100 100,
   StoreOp.create 110 110 150 150]

/-- The scale `zoomIn` requests (line 1539). -/
def nsIn (st : ImgState) : ℚ := min (st.scale * (6/5)) st.maxScale

/-- The scale `zoomOut` requests (line 1544). -/
def nsOut (st : ImgState) : ℚ := max (st.scale / (6/5)) st.minScale

/-- A zoom-stall start state for the counterexample: the 400×300 image on
an 800×600 canvas at scale `4.1663`, inside the constructor bounds
`[0.1, 5]`, display size and offsets consistent with the scale. -/
def c5start : ImgState :=
  ImgState.mk true (41663/10000) (-21663/50) (-64989/200) 400 300
    (41663/25) (124989/100) (1/10) 5 800 600

/-- The state one `zoomIn` after `c5start`: scale `4.99956`, re-centered. -/
def c5next : ImgState :=
  ImgState.mk true (124989/25000) (-74989/125) (-224967/500) 400 300
    (249978/125) (374967/250) (1/10) 5 800 600

/-! ### Id contiguity (claim C1) -/

theorem ids_deactivateAll (l : List Selection) :
    (deactivateAll l).map (fun s => s.id) = l.map fun s => s.id := by
  induction l with
  | nil => rfl
  | cons s rest ih => simp [deactivateAll] at ih ⊢

theorem ids_activateFirst (id : String) (l : List Selection) :
    (activateFirst id l).map (fun s => s.id) = l.map fun s => s.id := by
  induction l with
  | nil => rfl
  | cons s rest ih =>
      by_cases h : s.id = id <;> simp [activateFirst, h, ih]

theorem ids_updateFirst (id : String) (b : Bounds) (l : List Selection) :
    (updateFirst id b l).map (fun s => s.id) = l.map fun s => s.id := by
  induction l with
  | nil => rfl
  | cons s rest ih =>
      by_cases h : s.id = id <;> simp [updateFirst, h, assignBounds, ih]

theorem ids_setActiveSelection (st : SelectionStore) (id : String) :
    idsOf (st.setActiveSelection id) = idsOf st := by
  unfold SelectionStore.setActiveSelection idsOf SelectionStore.getAllSelections
  by_cases h : ((deactivateAll st.selections).find? fun s => s.id = id).isSome <;>
    simp [h, ids_activateFirst, ids_deactivateAll]

theorem renumberAux_cons_eq (i : Nat) (act : Option String) (s : Selection)
    (rest : List Selection) (h : s.id = mkSelId (i + 1)) :
    renumberAux i act (s :: rest) =
      (s :: (renumberAux (i + 1) act rest).1,
       (renumberAux (i + 1) act rest).2) := by
  simp [renumberAux, h]

theorem renumberAux_cons_ne (i : Nat) (act : Option String) (s : Selection)
    (rest : List Selection) (h : ¬s.id = mkSelId (i + 1)) :
    renumberAux i act (s :: rest) =
      ({ s with id := mkSelId (i + 1) } ::
        (renumberAux (i + 1)
          (if act = some s.id then some (mkSelId (i + 1)) else act) rest).1,
       (renumberAux (i + 1)
          (if act = some s.id then some (mkSelId (i + 1)) else act) rest).2) := by
  simp [renumberAux, h]

theorem range_map_mkSelId (n i : Nat) :
    (List.range (n + 1)).map (fun j => mkSelId (i + j + 1)) =
      mkSelId (i + 1) ::
        (List.range n).map fun j => mkSelId (i + 1 + j + 1) := by
  rw [List.range_succ_eq_map, List.map_cons, List.map_map]
  refine congrArg₂ List.cons ?_ (List.map_congr_left ?_)
  · show mkSelId (i + 0 + 1) = mkSelId (i + 1)
    congr 1
  · intro j _
    show mkSelId (i + (j + 1) + 1) = mkSelId (i + 1 + j + 1)
    congr 1
    omega

theorem ids_renumberAux (l : List Selection) :
    ∀ (i : Nat) (act : Option String),
      (renumberAux i act l).1.map (fun s => s.id) =
        (List.range l.length).map fun j => mkSelId (i + j + 1) := by
  induction l with
  | nil => intro i act; rfl
  | cons s rest ih =>
      intro i act
      rw [List.length_cons, range_map_mkSelId]
      by_cases h : s.id = mkSelId (i + 1)
      · rw [renumberAux_cons_eq i act s rest h, List.map_cons, h, ih]
      · rw [renumberAux_cons_ne i act s rest h, List.map_cons, ih]

theorem length_renumberAux (l : List Selection) (i : Nat) (act : Option String) :
    (renumberAux i act l).1.length = l.length := by
  have h := ids_renumberAux l i act
  have h1 : (renumberAux i act l).1.length =
      ((renumberAux i act l).1.map fun s => s.id).length := by simp
  rw [h1, h]; simp

theorem contiguous_renumber (st : SelectionStore) :
    Contiguous st.renumberSelections := by
  unfold Contiguous SelectionStore.renumberSelections idsOf
    SelectionStore.getAllSelections canonicalIds
  simp only [ids_renumberAux, length_renumberAux]
  apply List.map_congr_left
  intro j _
  congr 1
  omega

theorem length_updateFirst (id : String) (b : Bounds) (l : List Selection) :
    (updateFirst id b l).length = l.length := by
  simpa using congrArg List.length (ids_updateFirst id b l)

theorem length_deactivateAll (l : List Selection) :
    (deactivateAll l).length = l.length := by
  simpa using congrArg List.length (ids_deactivateAll l)

theorem length_setActiveSelection (st : SelectionStore) (id : String) :
    (st.setActiveSelection id).selections.length = st.selections.length := by
  have h := ids_setActiveSelection st id
  unfold idsOf SelectionStore.getAllSelections at h
  simpa using congrArg List.length h

theorem contiguous_setActive (st : SelectionStore) (id : String)
    (h : Contiguous st) : Contiguous (st.setActiveSelection id) := by
  unfold Contiguous at h ⊢
  rw [ids_setActiveSelection, length_setActiveSelection]
  exact h

theorem contiguous_append (st : SelectionStore) (act : Option String)
    (sel : Selection) (h : Contiguous st)
    (hid : sel.id = mkSelId (st.selections.length + 1)) :
    Contiguous (SelectionStore.mk (st.selections ++ [sel]) act) := by
  unfold Contiguous idsOf SelectionStore.getAllSelections canonicalIds
    at h ⊢
  simp only [List.map_append, List.map_cons, List.map_nil,
    List.length_append, List.length_cons, List.length_nil]
  rw [hid, h]
  have hlen : st.selections.length + (0 + 1) = st.selections.length + 1 := by
    omega
  rw [hlen, List.range_succ, List.map_append, List.map_cons, List.map_nil]

theorem createSelection_err (st : SelectionStore) (a b c d : ℚ)
    (hsmall : |c - a| < 1 ∨ |d - b| < 1) :
    st.createSelection a b c d = Except.error tooSmallMsg := by
  simp only [SelectionStore.createSelection, newSel]
  rw [if_pos hsmall]

theorem createSelection_ok (st : SelectionStore) (a b c d : ℚ)
    (hsmall : ¬(|c - a| < 1 ∨ |d - b| < 1)) :
    st.createSelection a b c d = Except.ok
      (SelectionStore.setActiveSelection
        ⟨st.selections ++ [newSel st a b c d], st.activeSelectionId⟩
        (mkSelId (st.selections.length + 1))) := by
  simp only [SelectionStore.createSelection, newSel]
  rw [if_neg hsmall]

theorem contiguous_createSelection (st st' : SelectionStore) (a b c d : ℚ)
    (h : Contiguous st)
    (hok : st.createSelection a b c d = Except.ok st') : Contiguous st' := by
  by_cases hsmall : |c - a| < 1 ∨ |d - b| < 1
  · rw [createSelection_err st a b c d hsmall] at hok
    exact absurd hok (by simp)
  · rw [createSelection_ok st a b c d hsmall] at hok
    have heq := Except.ok.inj hok
    rw [← heq]
    exact contiguous_setActive _ _ (contiguous_append st _ _ h rfl)

theorem contiguous_updateSelection (st : SelectionStore) (id : String)
    (b : Bounds) (h : Contiguous st) :
    Contiguous (st.updateSelection id b) := by
  unfold Contiguous idsOf SelectionStore.getAllSelections at h
  unfold Contiguous idsOf SelectionStore.getAllSelections
    SelectionStore.updateSelection
  simpa [ids_updateFirst, length_updateFirst] using h

theorem contiguous_createOrKeep (st : SelectionStore) (a b c d : ℚ)
    (h : Contiguous st) : Contiguous (createOrKeep st a b c d) := by
  unfold createOrKeep
  cases hok : st.createSelection a b c d with
  | error e => exact h
  | ok st' => exact contiguous_createSelection st st' a b c d h hok

theorem contiguous_deleteSelection (st : SelectionStore) (id : String)
    (h : Contiguous st) : Contiguous (st.deleteSelection id) := by
  unfold SelectionStore.deleteSelection
  cases hidx : st.selections.findIdx? fun s => s.id = id with
  | none => exact h
  | some i => exact contiguous_renumber _

theorem contiguous_clearActive (st : SelectionStore) (h : Contiguous st) :
    Contiguous st.clearActiveSelection := by
  unfold Contiguous idsOf SelectionStore.getAllSelections at h
  unfold Contiguous idsOf SelectionStore.getAllSelections
    SelectionStore.clearActiveSelection
  simpa [ids_deactivateAll, length_deactivateAll] using h

theorem contiguous_applyOp (st : SelectionStore) (op : StoreOp)
    (h : Contiguous st) : Contiguous (applyOp st op) := by
  cases op with
  | create a b c d => exact contiguous_createOrKeep st a b c d h
  | update id b => exact contiguous_updateSelection st id b h
  | delete id => exact contiguous_deleteSelection st id h
  | setActive id => exact contiguous_setActive st id h
  | clearActive => exact contiguous_clearActive st h
  | reset => rfl

theorem contiguous_foldl (ops : List StoreOp) :
    ∀ (st : SelectionStore), Contiguous st →
      Contiguous (ops.foldl applyOp st) := by
  induction ops with
  | nil => intro st h; exact h
  | cons op rest ih =>
      intro st h
      exact ih _ (contiguous_applyOp st op h)

/-- Claim C1 (amended): after every sequence of store operations — in
particular every sequence of `create`/`delete` operations — the ids returned
by `getAllSelections` are exactly `"selection_1", …, "selection_N"` in
backing order, renumbered after every deletion. -/
theorem c1_ids_contiguous (ops : List StoreOp) :
    idsOf (runOps ops) = canonicalIds (runOps ops).selections.length :=
  contiguous_foldl ops SelectionStore.init rfl

/-- Claim C1 counterexample: the ids are not the bare numerals
`"1", …, "N"` the claim states — after one successful create the single id
is `"selection_1"`, not `"1"`. -/
theorem c1_counterexample :
    idsOf (runOps [StoreOp.create 0 0 50 50]) = ["selection_1"] ∧
      idsOf (runOps [StoreOp.create 0 0 50 50]) ≠ ["1"] := by
  constructor
  · with_unfolding_all rfl
  · with_unfolding_all decide

/-! ### Single active selection (claim C2) -/

theorem deactivateAll_cons (s : Selection) (rest : List Selection) :
    deactivateAll (s :: rest) =
      { s with active := false } :: deactivateAll rest := rfl

theorem filter_active_deactivateAll (l : List Selection) :
    (deactivateAll l).filter (fun s => s.active) = [] := by
  induction l with
  | nil => rfl
  | cons s rest ih =>
      rw [deactivateAll_cons, List.filter_cons]
      simpa using ih

theorem countActive_activateFirst_deact (id : String) (l : List Selection) :
    ((activateFirst id (deactivateAll l)).filter fun s => s.active).length
      ≤ 1 := by
  induction l with
  | nil => simp [deactivateAll, activateFirst]
  | cons s rest ih =>
      rw [deactivateAll_cons]
      by_cases h : s.id = id
      · simp only [activateFirst, h, if_pos, List.filter_cons]
        simp [filter_active_deactivateAll rest]
      · simp only [activateFirst, h, if_neg, not_false_iff, List.filter_cons]
        simpa using ih

theorem countActive_setActiveSelection (st : SelectionStore) (id : String) :
    countActive (st.setActiveSelection id) ≤ 1 := by
  unfold countActive SelectionStore.setActiveSelection
  cases hfind :
      ((deactivateAll st.selections).find? fun s => s.id = id).isSome with
  | true =>
      simp only [hfind, if_pos]
      exact countActive_activateFirst_deact id st.selections
  | false =>
      simp only [hfind, Bool.false_eq_true, if_false]
      rw [filter_active_deactivateAll]
      simp

theorem countActive_createOrKeep (st : SelectionStore) (a b c d : ℚ)
    (h : countActive st ≤ 1) : countActive (createOrKeep st a b c d) ≤ 1 := by
  unfold createOrKeep
  by_cases hsmall : |c - a| < 1 ∨ |d - b| < 1
  · rw [createSelection_err st a b c d hsmall]
    exact h
  · rw [createSelection_ok st a b c d hsmall]
    exact countActive_setActiveSelection _ _

theorem countActive_updateFirst (id : String) (b : Bounds)
    (l : List Selection) :
    ((updateFirst id b l).filter fun s => s.active).length =
      (l.filter fun s => s.active).length := by
  induction l with
  | nil => rfl
  | cons s rest ih =>
      by_cases h : s.id = id <;>
        by_cases ha : s.active <;>
          simp [updateFirst, h, assignBounds, List.filter_cons, ha, ih]

theorem countActive_renumberAux (l : List Selection) :
    ∀ (i : Nat) (act : Option String),
      ((renumberAux i act l).1.filter fun s => s.active).length =
        (l.filter fun s => s.active).length := by
  induction l with
  | nil => intro i act; rfl
  | cons s rest ih =>
      intro i act
      by_cases h : s.id = mkSelId (i + 1)
      · rw [renumberAux_cons_eq i act s rest h]
        by_cases ha : s.active <;> simp [List.filter_cons, ha, ih]
      · rw [renumberAux_cons_ne i act s rest h]
        by_cases ha : s.active <;> simp [List.filter_cons, ha, ih]

theorem countActive_eraseIdx (l : List Selection) (i : Nat) :
    ((l.eraseIdx i).filter fun s => s.active).length ≤
      (l.filter fun s => s.active).length :=
  List.Sublist.length_le (List.Sublist.filter _ (List.eraseIdx_sublist l i))

theorem countActive_applyOp (st : SelectionStore) (op : StoreOp)
    (h : countActive st ≤ 1) : countActive (applyOp st op) ≤ 1 := by
  cases op with
  | create a b c d => exact countActive_createOrKeep st a b c d h
  | update id b =>
      show countActive (st.updateSelection id b) ≤ 1
      unfold countActive SelectionStore.updateSelection
      rw [countActive_updateFirst]
      exact h
  | delete id =>
      show countActive (st.deleteSelection id) ≤ 1
      unfold SelectionStore.deleteSelection
      cases hidx : st.selections.findIdx? fun s => s.id = id with
      | none => exact h
      | some i =>
          unfold countActive SelectionStore.renumberSelections
          rw [countActive_renumberAux]
          exact le_trans (countActive_eraseIdx st.selections i) h
  | setActive id => exact countActive_setActiveSelection st id
  | clearActive =>
      show countActive st.clearActiveSelection ≤ 1
      unfold countActive SelectionStore.clearActiveSelection
      rw [filter_active_deactivateAll]
      simp
  | reset =>
      show countActive (st.reset) ≤ 1
      unfold countActive SelectionStore.reset
      simp

theorem countActive_foldl (ops : List StoreOp) :
    ∀ (st : SelectionStore), countActive st ≤ 1 →
      countActive (ops.foldl applyOp st) ≤ 1 := by
  induction ops with
  | nil => intro st h; exact h
  | cons op rest ih =>
      intro st h
      exact ih _ (countActive_applyOp st op h)

/-- Claim C2: for every sequence of store operations (create, update,
delete, setActive, clearActive, reset) run from the freshly constructed
store, at most one selection has `active = true` afterwards. -/
theorem c2_single_active (ops : List StoreOp) :
    countActive (runOps ops) ≤ 1 :=
  countActive_foldl ops SelectionStore.init (by decide)

/-! ### setActive with an absent id (claim C10) -/

theorem find_deactivateAll_none (st : SelectionStore) (id : String)
    (h : ∀ s ∈ st.selections, s.id ≠ id) :
    ((deactivateAll st.selections).find? fun s => s.id = id) = none := by
  apply List.find?_eq_none.mpr
  intro x hx
  simp only [deactivateAll, List.mem_map] at hx
  obtain ⟨y, hy, rfl⟩ := hx
  simpa using h y hy

/-- Claim C10: calling `setActiveSelection` with an id that no stored
selection carries deactivates every selection (zero remain active — it is
not a no-op preserving the previously active one), while
`activeSelectionId` keeps its previous, now stale, value. -/
theorem c10_setActive_missing_id (st : SelectionStore) (id : String)
    (h : ∀ s ∈ st.selections, s.id ≠ id) :
    countActive (st.setActiveSelection id) = 0 ∧
      (st.setActiveSelection id).activeSelectionId = st.activeSelectionId := by
  simp only [SelectionStore.setActiveSelection, find_deactivateAll_none st id h,
    Option.isSome_none, Bool.false_eq_true, if_false]
  constructor
  · unfold countActive
    rw [filter_active_deactivateAll]
    rfl
  · trivial

/-- Witness for C10: a store holding one active selection `selection_1`;
activating the absent id `selection_9` leaves zero active selections while
`activeSelectionId` still reads `selection_1`. -/
theorem c10_witness :
    countActive (SelectionStore.mk
      [⟨"selection_1", 0, 0, 50, 50, true⟩] (some "selection_1")) = 1 ∧
    countActive ((SelectionStore.mk
      [⟨"selection_1", 0, 0, 50, 50, true⟩]
      (some "selection_1")).setActiveSelection "selection_9") = 0 ∧
    ((SelectionStore.mk [⟨"selection_1", 0, 0, 50, 50, true⟩]
      (some "selection_1")).setActiveSelection
        "selection_9").activeSelectionId = some "selection_1" := by
  refine ⟨by with_unfolding_all decide, ?_⟩
  have h := c10_setActive_missing_id
    (SelectionStore.mk [⟨"selection_1", 0, 0, 50, 50, true⟩]
      (some "selection_1")) "selection_9" (by decide)
  exact ⟨h.1, h.2⟩

/-! ### Delete-renumber scenario (claim C8) -/

/-- Claim C8 (amended): creating three selections yields ids
`selection_1/2/3` with `selection_3` active; deleting `selection_2` leaves
ids `selection_1, selection_2` in original relative order with the formerly
third selection (the one at x = 110) still the active one under its
remapped id `selection_2`; a subsequent create yields `selection_3`. -/
theorem c8_scenario :
    idsOf (runOps c8_ops) = ["selection_1", "selection_2", "selection_3"] ∧
    (runOps c8_ops).activeSelectionId = some "selection_3" ∧
    idsOf ((runOps c8_ops).deleteSelection "selection_2") =
      ["selection_1", "selection_2"] ∧
    ((runOps c8_ops).deleteSelection "selection_2").activeSelectionId =
      some "selection_2" ∧
    ((runOps c8_ops).deleteSelection "selection_2").getActiveSelection =
      some ⟨"selection_2", 110, 110, 40, 40, true⟩ ∧
    idsOf (createOrKeep ((runOps c8_ops).deleteSelection "selection_2")
        160 160 200 200) =
      ["selection_1", "selection_2", "selection_3"] := by
  with_unfolding_all decide

/-- Claim C8 counterexample: the ids after the three creates are not the
bare numerals `"1", "2", "3"` stated by the claim. -/
theorem c8_counterexample :
    idsOf (runOps c8_ops) ≠ ["1", "2", "3"] := by
  with_unfolding_all decide

/-! ### createSelection throw versus handler guard (claim C3) -/

/-- Claim C3 (amended): `createSelection` does not degrade to a no-op on a
degenerate rectangle — it throws (`Except.error`) whenever the normalized
width or height is below 1; the interaction handler's draw-commit path
nonetheless never propagates a throw, because it only invokes create on
rectangles whose clamped width and height exceed 5. -/
theorem c3_create_throws_handler_guarded :
    (∀ (st : SelectionStore) (a b c d : ℚ),
        (|c - a| < 1 ∨ |d - b| < 1) →
          st.createSelection a b c d = Except.error tooSmallMsg) ∧
      ∀ (img : ImgState) (store : SelectionStore) (dragStart mouse : Pt),
        ∃ st', mouseUpDrawCommit img store dragStart mouse =
          Except.ok st' := by
  refine ⟨createSelection_err, ?_⟩
  intro img store dragStart mouse
  simp only [mouseUpDrawCommit]
  split_ifs with h1 h2
  · have hW := h2.1
    have hH := h2.2
    refine ⟨_, createSelection_ok store _ _ _ _ ?_⟩
    push_neg
    constructor
    · have := le_abs_self
        (max 0 (min (max dragStart.x (img.canvasToImage mouse).x)
            img.originalWidth) -
          max 0 (min (min dragStart.x (img.canvasToImage mouse).x)
            img.originalWidth))
      linarith
    · have := le_abs_self
        (max 0 (min (max dragStart.y (img.canvasToImage mouse).y)
            img.originalHeight) -
          max 0 (min (min dragStart.y (img.canvasToImage mouse).y)
            img.originalHeight))
      linarith
  · exact ⟨store, rfl⟩
  · exact ⟨store, rfl⟩

/-- Claim C3 counterexample: a create whose normalized rectangle is
`0.5 × 20` raises the "selection too small" exception instead of degrading
to a no-op. -/
theorem c3_counterexample :
    SelectionStore.init.createSelection 0 0 (1/2) 20 =
      Except.error tooSmallMsg := by
  with_unfolding_all rfl

/-- Witness for C3: the throw hypothesis discharged at the `0.5 × 20`
rectangle, and the handler guard at a concrete gesture. -/
theorem c3_witness :
    SelectionStore.init.createSelection 0 0 (1/2) 20 =
        Except.error tooSmallMsg ∧
      ∃ st', mouseUpDrawCommit (ImgState.initial 800 600)
        SelectionStore.init ⟨0, 0⟩ ⟨20, 20⟩ = Except.ok st' :=
  ⟨c3_create_throws_handler_guarded.1 SelectionStore.init 0 0 (1/2) 20
      (Or.inl (by with_unfolding_all decide)),
    c3_create_throws_handler_guarded.2 (ImgState.initial 800 600)
      SelectionStore.init ⟨0, 0⟩ ⟨20, 20⟩⟩

/-! ### Coordinate round trip (claim C4) -/

/-- Claim C4: with a positive scale (every scale in
`[minScale, maxScale]` is positive since `minScale = 0.1 > 0`), the forward
map inverts the inverse map exactly over the rationals:
`imageToCanvas (canvasToImage p) = p`. -/
theorem c4_roundtrip (st : ImgState) (p : Pt)
    (hmin : 0 < st.minScale) (hsc : st.minScale ≤ st.scale) :
    st.imageToCanvas (st.canvasToImage p) = p := by
  have hne : st.scale ≠ 0 := ne_of_gt (lt_of_lt_of_le hmin hsc)
  cases p with
  | mk px py =>
      unfold ImgState.imageToCanvas ImgState.canvasToImage
      simp only [Pt.mk.injEq]
      constructor <;> field_simp

/-- Witness for C4: the round trip at scale 1 with offset 0 on the
constructor state maps `(3,4)` back to `(3,4)`. -/
theorem c4_witness :
    (ImgState.initial 800 600).imageToCanvas
      ((ImgState.initial 800 600).canvasToImage ⟨3, 4⟩) = ⟨3, 4⟩ :=
  c4_roundtrip (ImgState.initial 800 600) ⟨3, 4⟩
    (by with_unfolding_all decide) (by with_unfolding_all decide)

/-! ### toImageSpace without an image (claim C9) -/

/-- Claim C9 (amended): `canvasToImage` carries no image guard.  While no
image is loaded (the state produced by `resetImageState`, whose transform
fields match the constructor's: scale 1, offset 0) it still returns a
coordinate pair — the surface point unchanged — rather than the
undefined/empty result the claim describes. -/
theorem c9_no_image_identity (st : ImgState) (p : Pt) :
    (st.resetImageState).hasImage = false ∧
      (st.resetImageState).canvasToImage p = p := by
  constructor
  · rfl
  · cases p with
    | mk px py =>
        unfold ImgState.canvasToImage ImgState.resetImageState
        simp

/-- Claim C9 counterexample: in the no-image state the spec-modelled guarded
map returns `none`, but the source's `canvasToImage` returns the concrete
coordinate pair `(3,4)`. -/
theorem c9_counterexample :
    canvasToImageSpec ((ImgState.initial 800 600).resetImageState) ⟨3, 4⟩ =
        none ∧
      ((ImgState.initial 800 600).resetImageState).canvasToImage ⟨3, 4⟩ =
        ⟨3, 4⟩ := by
  constructor
  · rfl
  · with_unfolding_all decide

/-! ### Zoom around an anchor point (claim C6) -/

/-- Claim C6: with an image loaded, a positive current scale, consistent
display sizes, and a clamped new scale that differs from the current one by
at least the `0.001` epsilon, `setScale` first computes an offset under
which the image-space point previously under the anchor is mapped back to
the anchor exactly (the pre-constraint state `setScalePre`), and the final
state is that state with the position-constraint policy applied. -/
theorem c6_scale_anchor_preserved (st : ImgState) (newScale : ℚ)
    (anchor : Pt)
    (himg : st.hasImage = true)
    (hpos : 0 < st.scale)
    (hdw : st.displayWidth = st.originalWidth * st.scale)
    (hdh : st.displayHeight = st.originalHeight * st.scale)
    (heps : ¬(|st.clampScale newScale - st.scale| < 1/1000)) :
    (st.setScalePre (st.clampScale newScale) (some anchor)).imageToCanvas
        (st.canvasToImage anchor) = anchor ∧
      st.setScale newScale (some anchor) =
        (st.setScalePre (st.clampScale newScale)
          (some anchor)).constrainImagePosition := by
  have hne : st.scale ≠ 0 := ne_of_gt hpos
  constructor
  · cases anchor with
    | mk ax ay =>
        simp only [ImgState.setScalePre, ImgState.imageToCanvas,
          ImgState.canvasToImage, Option.getD_some, hdw, hdh, Pt.mk.injEq]
        constructor <;> (field_simp; ring)
  · unfold ImgState.setScale
    rw [himg]
    simp only [Bool.true_eq_false, if_false]
    rw [if_neg heps]

/-- Witness for C6: zooming the 400×300 image from scale 1 to 2 around the
anchor `(400,300)` keeps the image point under the anchor fixed before the
constraint is applied, and the result is the constrained pre-state. -/
theorem c6_witness :
    ((ImgState.mk true 1 100 50 400 300 400 300 (1/10) 5 800 600).setScalePre
        ((ImgState.mk true 1 100 50 400 300 400 300
          (1/10) 5 800 600).clampScale 2) (some ⟨400, 300⟩)).imageToCanvas
        ((ImgState.mk true 1 100 50 400 300 400 300
          (1/10) 5 800 600).canvasToImage ⟨400, 300⟩) = ⟨400, 300⟩ ∧
      (ImgState.mk true 1 100 50 400 300 400 300 (1/10) 5 800 600).setScale 2
          (some ⟨400, 300⟩) =
        ((ImgState.mk true 1 100 50 400 300 400 300
          (1/10) 5 800 600).setScalePre
          ((ImgState.mk true 1 100 50 400 300 400 300
            (1/10) 5 800 600).clampScale 2)
          (some ⟨400, 300⟩)).constrainImagePosition :=
  c6_scale_anchor_preserved
    (ImgState.mk true 1 100 50 400 300 400 300 (1/10) 5 800 600) 2 ⟨400, 300⟩
    rfl (by with_unfolding_all decide) (by with_unfolding_all decide)
    (by with_unfolding_all decide) (by with_unfolding_all decide)

/-! ### Resize minimum-size floor with anchor pin (claim C7) -/

/-- Claim C7: for every handle, pre-gesture rectangle and gesture delta,
when the handle arithmetic would drop a dimension below the 10-unit floor,
the minimum-size step clamps that dimension to 10 and pins the opposite
edge: for a `w`-containing handle the right edge stays at its pre-gesture
position (so for `se`-like handles the untouched left edge stays, and
symmetrically in `y`); and when the floored rectangle already lies inside
the image, the final image-bounds clamp changes nothing. -/
theorem applyMinSize_width (h : Handle) (orig nb : Rect)
    (hw : nb.width < 10) :
    (applyMinSize h orig nb).width = 10 ∧
      (applyMinSize h orig nb).x =
        if handleHasW h then orig.x + orig.width - 10 else nb.x := by
  unfold applyMinSize
  rw [if_pos hw]
  dsimp only
  split_ifs <;> simp

theorem applyMinSize_height (h : Handle) (orig nb : Rect)
    (hh : nb.height < 10) :
    (applyMinSize h orig nb).height = 10 ∧
      (applyMinSize h orig nb).y =
        if handleHasN h then orig.y + orig.height - 10 else nb.y := by
  unfold applyMinSize
  by_cases hw : nb.width < 10
  · rw [if_pos hw]
    dsimp only
    rw [if_pos hh]
    exact ⟨rfl, rfl⟩
  · rw [if_neg hw]
    rw [if_pos hh]
    exact ⟨rfl, rfl⟩

theorem resizeSwitch_x_eq (orig : Rect) (h : Handle) (dx dy : ℚ)
    (hW : handleHasW h = false) :
    (resizeSwitch orig h dx dy).x = orig.x := by
  cases h <;> simp_all [handleHasW, resizeSwitch]

theorem resizeSwitch_y_eq (orig : Rect) (h : Handle) (dx dy : ℚ)
    (hN : handleHasN h = false) :
    (resizeSwitch orig h dx dy).y = orig.y := by
  cases h <;> simp_all [handleHasN, resizeSwitch]

theorem clampRect_id (nb : Rect) (imgW imgH : ℚ) (h1 : 0 ≤ nb.x)
    (h2 : 0 ≤ nb.y) (h3 : nb.x + nb.width ≤ imgW)
    (h4 : nb.y + nb.height ≤ imgH) :
    clampRectToImage nb imgW imgH = nb := by
  unfold clampRectToImage
  cases nb with
  | mk x y w hgt =>
      dsimp only at h1 h2 h3 h4 ⊢
      rw [max_eq_right h1, max_eq_right h2]
      simp only [Rect.mk.injEq, true_and]
      exact ⟨min_eq_left (by linarith), min_eq_left (by linarith)⟩

theorem c7_resize_floor_pin (orig : Rect) (h : Handle)
    (dx dy imgW imgH : ℚ) :
    ((resizeSwitch orig h dx dy).width < 10 →
        (applyMinSize h orig (resizeSwitch orig h dx dy)).width = 10 ∧
        (handleHasW h = true →
          (applyMinSize h orig (resizeSwitch orig h dx dy)).x + 10 =
            orig.x + orig.width) ∧
        (handleHasW h = false →
          (applyMinSize h orig (resizeSwitch orig h dx dy)).x = orig.x)) ∧
    ((resizeSwitch orig h dx dy).height < 10 →
        (applyMinSize h orig (resizeSwitch orig h dx dy)).height = 10 ∧
        (handleHasN h = true →
          (applyMinSize h orig (resizeSwitch orig h dx dy)).y + 10 =
            orig.y + orig.height) ∧
        (handleHasN h = false →
          (applyMinSize h orig (resizeSwitch orig h dx dy)).y = orig.y)) ∧
    (0 ≤ (applyMinSize h orig (resizeSwitch orig h dx dy)).x →
      0 ≤ (applyMinSize h orig (resizeSwitch orig h dx dy)).y →
      (applyMinSize h orig (resizeSwitch orig h dx dy)).x +
          (applyMinSize h orig (resizeSwitch orig h dx dy)).width ≤ imgW →
      (applyMinSize h orig (resizeSwitch orig h dx dy)).y +
          (applyMinSize h orig (resizeSwitch orig h dx dy)).height ≤ imgH →
      clampRectToImage (applyMinSize h orig (resizeSwitch orig h dx dy))
          imgW imgH =
        applyMinSize h orig (resizeSwitch orig h dx dy)) := by
  refine ⟨fun hw => ?_, fun hh => ?_, fun h1 h2 h3 h4 => ?_⟩
  · obtain ⟨h10, hx⟩ := applyMinSize_width h orig _ hw
    refine ⟨h10, fun hW => ?_, fun hW => ?_⟩
    · rw [hx, if_pos hW]
      ring
    · rw [hx, if_neg (by rw [hW]; exact Bool.false_ne_true)]
      exact resizeSwitch_x_eq orig h dx dy hW
  · obtain ⟨h10, hy⟩ := applyMinSize_height h orig _ hh
    refine ⟨h10, fun hN => ?_, fun hN => ?_⟩
    · rw [hy, if_pos hN]
      ring
    · rw [hy, if_neg (by rw [hN]; exact Bool.false_ne_true)]
      exact resizeSwitch_y_eq orig h dx dy hN
  · exact clampRect_id _ imgW imgH h1 h2 h3 h4

/-! ### Zoom bounds and convergence (claim C5) -/

theorem zoomIn_def (st : ImgState) :
    st.zoomIn = st.setScaleKeepCentered (nsIn st) := rfl

theorem zoomOut_def (st : ImgState) :
    st.zoomOut = st.setScaleKeepCentered (nsOut st) := rfl

theorem setScaleKeepCentered_fields (st : ImgState) (ns : ℚ) :
    (st.setScaleKeepCentered ns).hasImage = st.hasImage ∧
      (st.setScaleKeepCentered ns).minScale = st.minScale ∧
      (st.setScaleKeepCentered ns).maxScale = st.maxScale := by
  simp only [ImgState.setScaleKeepCentered]
  split_ifs <;> exact ⟨rfl, rfl, rfl⟩

theorem setScaleKeepCentered_eq_of_eps (st : ImgState) (ns : ℚ)
    (himg : st.hasImage = true)
    (heps : |st.clampScale ns - st.scale| < 1/1000) :
    st.setScaleKeepCentered ns = st := by
  simp only [ImgState.setScaleKeepCentered, himg, Bool.true_eq_false,
    if_false]
  rw [if_pos heps]

theorem setScaleKeepCentered_scale_of_not_eps (st : ImgState) (ns : ℚ)
    (himg : st.hasImage = true)
    (heps : ¬(|st.clampScale ns - st.scale| < 1/1000)) :
    (st.setScaleKeepCentered ns).scale = st.clampScale ns := by
  simp only [ImgState.setScaleKeepCentered, himg, Bool.true_eq_false,
    if_false]
  rw [if_neg heps]

theorem clampScale_nsIn (st : ImgState) (h0 : 0 ≤ st.scale)
    (hlo : st.minScale ≤ st.scale) (hhi : st.scale ≤ st.maxScale) :
    st.clampScale (nsIn st) = nsIn st := by
  unfold ImgState.clampScale nsIn
  have h1 : min (st.scale * (6/5)) st.maxScale ≤ st.maxScale :=
    min_le_right _ _
  have h2 : st.minScale ≤ min (st.scale * (6/5)) st.maxScale :=
    le_min (by linarith) (le_trans hlo hhi)
  rw [min_eq_left h1, max_eq_right h2]

theorem clampScale_nsOut (st : ImgState) (h0 : 0 ≤ st.scale)
    (hlo : st.minScale ≤ st.scale) (hhi : st.scale ≤ st.maxScale) :
    st.clampScale (nsOut st) = nsOut st := by
  have hdiv : st.scale / (6/5) = st.scale * (5/6) := by ring
  unfold ImgState.clampScale nsOut
  have h1 : max (st.scale / (6/5)) st.minScale ≤ st.maxScale :=
    max_le (by rw [hdiv]; linarith) (le_trans hlo hhi)
  have h2 : st.minScale ≤ max (st.scale / (6/5)) st.minScale :=
    le_max_right _ _
  rw [min_eq_left h1, max_eq_right h2]

theorem scale_le_nsIn (st : ImgState) (h0 : 0 ≤ st.scale)
    (hhi : st.scale ≤ st.maxScale) : st.scale ≤ nsIn st :=
  le_min (by linarith) hhi

theorem nsOut_le_scale (st : ImgState) (h0 : 0 ≤ st.scale)
    (hlo : st.minScale ≤ st.scale) : nsOut st ≤ st.scale := by
  have hdiv : st.scale / (6/5) = st.scale * (5/6) := by ring
  exact max_le (by rw [hdiv]; linarith) hlo

theorem zoomIn_scale_bounds (st : ImgState) (himg : st.hasImage = true)
    (hm : 0 < st.minScale) (hlo : st.minScale ≤ st.scale)
    (hhi : st.scale ≤ st.maxScale) :
    st.minScale ≤ (st.zoomIn).scale ∧ (st.zoomIn).scale ≤ st.maxScale ∧
      st.scale ≤ (st.zoomIn).scale := by
  have h0 : 0 ≤ st.scale := le_of_lt (lt_of_lt_of_le hm hlo)
  rw [zoomIn_def]
  by_cases heps : |st.clampScale (nsIn st) - st.scale| < 1/1000
  · rw [setScaleKeepCentered_eq_of_eps st (nsIn st) himg heps]
    exact ⟨hlo, hhi, le_refl _⟩
  · rw [setScaleKeepCentered_scale_of_not_eps st (nsIn st) himg heps,
      clampScale_nsIn st h0 hlo hhi]
    exact ⟨le_trans hlo (scale_le_nsIn st h0 hhi), min_le_right _ _,
      scale_le_nsIn st h0 hhi⟩

theorem zoomOut_scale_bounds (st : ImgState) (himg : st.hasImage = true)
    (hm : 0 < st.minScale) (hlo : st.minScale ≤ st.scale)
    (hhi : st.scale ≤ st.maxScale) :
    st.minScale ≤ (st.zoomOut).scale ∧ (st.zoomOut).scale ≤ st.maxScale ∧
      (st.zoomOut).scale ≤ st.scale := by
  have h0 : 0 ≤ st.scale := le_of_lt (lt_of_lt_of_le hm hlo)
  rw [zoomOut_def]
  by_cases heps : |st.clampScale (nsOut st) - st.scale| < 1/1000
  · rw [setScaleKeepCentered_eq_of_eps st (nsOut st) himg heps]
    exact ⟨hlo, hhi, le_refl _⟩
  · rw [setScaleKeepCentered_scale_of_not_eps st (nsOut st) himg heps,
      clampScale_nsOut st h0 hlo hhi]
    exact ⟨le_max_right _ _,
      le_trans (nsOut_le_scale st h0 hlo) hhi,
      nsOut_le_scale st h0 hlo⟩

theorem zoomIn_near_max_of_eps (st : ImgState)
    (hm : 3/500 ≤ st.minScale) (hlo : st.minScale ≤ st.scale)
    (heps : |nsIn st - st.scale| < 1/1000) :
    st.maxScale - 1/1000 < st.scale := by
  have h0 : (0:ℚ) ≤ st.scale := by linarith
  have hup : st.scale ≤ nsIn st ∨ st.maxScale ≤ st.scale := by
    by_cases hc : st.scale ≤ st.maxScale
    · exact Or.inl (scale_le_nsIn st h0 hc)
    · exact Or.inr (le_of_lt (not_le.mp hc))
  cases hup with
  | inr h => linarith
  | inl hmono =>
      rw [abs_of_nonneg (by linarith)] at heps
      by_cases hcap : st.scale * (6/5) ≤ st.maxScale
      · have : nsIn st = st.scale * (6/5) := min_eq_left hcap
        rw [this] at heps
        nlinarith
      · have : nsIn st = st.maxScale :=
          min_eq_right (le_of_lt (not_le.mp hcap))
        rw [this] at heps
        linarith

theorem zoomOut_near_min_of_eps (st : ImgState)
    (hm : 3/500 ≤ st.minScale) (hlo : st.minScale ≤ st.scale)
    (heps : |nsOut st - st.scale| < 1/1000) :
    st.scale < st.minScale + 1/1000 := by
  have h0 : (0:ℚ) ≤ st.scale := by linarith
  have hdiv : st.scale / (6/5) = st.scale * (5/6) := by ring
  have hmono : nsOut st ≤ st.scale := nsOut_le_scale st h0 hlo
  rw [abs_sub_comm, abs_of_nonneg (by linarith)] at heps
  by_cases hcap : st.minScale ≤ st.scale / (6/5)
  · have : nsOut st = st.scale / (6/5) := max_eq_left hcap
    rw [this, hdiv] at heps
    nlinarith
  · have : nsOut st = st.minScale :=
      max_eq_right (le_of_lt (not_le.mp hcap))
    rw [this] at heps
    linarith

theorem zoomIn_fields (st : ImgState) :
    (st.zoomIn).hasImage = st.hasImage ∧
      (st.zoomIn).minScale = st.minScale ∧
      (st.zoomIn).maxScale = st.maxScale := by
  rw [zoomIn_def]
  exact setScaleKeepCentered_fields st (nsIn st)

theorem zoomOut_fields (st : ImgState) :
    (st.zoomOut).hasImage = st.hasImage ∧
      (st.zoomOut).minScale = st.minScale ∧
      (st.zoomOut).maxScale = st.maxScale := by
  rw [zoomOut_def]
  exact setScaleKeepCentered_fields st (nsOut st)

theorem zoomIn_fixed_of_eps (st : ImgState) (himg : st.hasImage = true)
    (h0 : 0 ≤ st.scale) (hlo : st.minScale ≤ st.scale)
    (hhi : st.scale ≤ st.maxScale)
    (heps : |nsIn st - st.scale| < 1/1000) : st.zoomIn = st := by
  rw [zoomIn_def]
  refine setScaleKeepCentered_eq_of_eps st (nsIn st) himg ?_
  rw [clampScale_nsIn st h0 hlo hhi]
  exact heps

theorem zoomIn_scale_of_step (st : ImgState) (himg : st.hasImage = true)
    (h0 : 0 ≤ st.scale) (hlo : st.minScale ≤ st.scale)
    (hhi : st.scale ≤ st.maxScale)
    (heps : ¬(|nsIn st - st.scale| < 1/1000)) :
    (st.zoomIn).scale = nsIn st := by
  rw [zoomIn_def]
  rw [setScaleKeepCentered_scale_of_not_eps st (nsIn st) himg
    (by rw [clampScale_nsIn st h0 hlo hhi]; exact heps)]
  exact clampScale_nsIn st h0 hlo hhi

theorem zoomOut_fixed_of_eps (st : ImgState) (himg : st.hasImage = true)
    (h0 : 0 ≤ st.scale) (hlo : st.minScale ≤ st.scale)
    (hhi : st.scale ≤ st.maxScale)
    (heps : |nsOut st - st.scale| < 1/1000) : st.zoomOut = st := by
  rw [zoomOut_def]
  refine setScaleKeepCentered_eq_of_eps st (nsOut st) himg ?_
  rw [clampScale_nsOut st h0 hlo hhi]
  exact heps

theorem zoomOut_scale_of_step (st : ImgState) (himg : st.hasImage = true)
    (h0 : 0 ≤ st.scale) (hlo : st.minScale ≤ st.scale)
    (hhi : st.scale ≤ st.maxScale)
    (heps : ¬(|nsOut st - st.scale| < 1/1000)) :
    (st.zoomOut).scale = nsOut st := by
  rw [zoomOut_def]
  rw [setScaleKeepCentered_scale_of_not_eps st (nsOut st) himg
    (by rw [clampScale_nsOut st h0 hlo hhi]; exact heps)]
  exact clampScale_nsOut st h0 hlo hhi

theorem zoomIn_stabilizes_aux :
    ∀ (k : ℕ) (st : ImgState), st.hasImage = true →
      3/500 ≤ st.minScale → st.minScale ≤ st.scale →
      st.scale ≤ st.maxScale →
      (Int.ceil ((st.maxScale - st.scale) * 1000)).toNat ≤ k →
      ∃ n, (iterZoomIn n st).zoomIn = iterZoomIn n st ∧
        st.maxScale - 1/1000 < (iterZoomIn n st).scale := by
  intro k
  induction k with
  | zero =>
      intro st himg hm hlo hhi hk
      have hceil : Int.ceil ((st.maxScale - st.scale) * 1000) ≤ 0 := by
        omega
      have hle : (st.maxScale - st.scale) * 1000 ≤ ((0:ℤ):ℚ) :=
        Int.ceil_le.mp hceil
      push_cast at hle
      have h0 : (0:ℚ) ≤ st.scale := by linarith
      have heps : |nsIn st - st.scale| < 1/1000 := by
        have h1 : nsIn st ≤ st.maxScale := min_le_right _ _
        have h2 : st.scale ≤ nsIn st := scale_le_nsIn st h0 (by linarith)
        rw [abs_of_nonneg (by linarith)]
        linarith
      exact ⟨0, zoomIn_fixed_of_eps st himg h0 hlo (by linarith) heps, by
        show st.maxScale - 1/1000 < st.scale
        linarith⟩
  | succ k ih =>
      intro st himg hm hlo hhi hk
      have h0 : (0:ℚ) ≤ st.scale := by linarith
      by_cases heps : |nsIn st - st.scale| < 1/1000
      · exact ⟨0, zoomIn_fixed_of_eps st himg h0 hlo hhi heps,
          zoomIn_near_max_of_eps st hm hlo heps⟩
      · have hsc : (st.zoomIn).scale = nsIn st :=
          zoomIn_scale_of_step st himg h0 hlo hhi heps
        obtain ⟨hfi, hfm, hfM⟩ := zoomIn_fields st
        have hmono : st.scale ≤ nsIn st := scale_le_nsIn st h0 hhi
        have hdelta : 1/1000 ≤ nsIn st - st.scale := by
          rw [abs_of_nonneg (by linarith)] at heps
          exact not_lt.mp heps
        have hnsM : nsIn st ≤ st.maxScale := min_le_right _ _
        have hmeas : (Int.ceil ((st.maxScale - nsIn st) * 1000)).toNat
            ≤ k := by
          have hq : (st.maxScale - nsIn st) * 1000 ≤
              (st.maxScale - st.scale) * 1000 - ((1:ℤ):ℚ) := by
            push_cast
            linarith
          have hc1 := Int.ceil_mono hq
          rw [Int.ceil_sub_int] at hc1
          omega
        have h1 : (st.zoomIn).hasImage = true := by rw [hfi]; exact himg
        have h2 : 3/500 ≤ (st.zoomIn).minScale := by rw [hfm]; exact hm
        have h3 : (st.zoomIn).minScale ≤ (st.zoomIn).scale := by
          rw [hfm, hsc]; exact le_trans hlo hmono
        have h4 : (st.zoomIn).scale ≤ (st.zoomIn).maxScale := by
          rw [hfM, hsc]; exact hnsM
        have h5 : (Int.ceil (((st.zoomIn).maxScale - (st.zoomIn).scale)
            * 1000)).toNat ≤ k := by
          rw [hfM, hsc]; exact hmeas
        obtain ⟨n, hfix, hlt⟩ := ih (st.zoomIn) h1 h2 h3 h4 h5
        refine ⟨n + 1, hfix, ?_⟩
        show st.maxScale - 1/1000 < (iterZoomIn n (st.zoomIn)).scale
        rw [hfM] at hlt
        exact hlt

theorem zoomOut_stabilizes_aux :
    ∀ (k : ℕ) (st : ImgState), st.hasImage = true →
      3/500 ≤ st.minScale → st.minScale ≤ st.scale →
      st.scale ≤ st.maxScale →
      (Int.ceil ((st.scale - st.minScale) * 1000)).toNat ≤ k →
      ∃ n, (iterZoomOut n st).zoomOut = iterZoomOut n st ∧
        (iterZoomOut n st).scale < st.minScale + 1/1000 := by
  intro k
  induction k with
  | zero =>
      intro st himg hm hlo hhi hk
      have hceil : Int.ceil ((st.scale - st.minScale) * 1000) ≤ 0 := by
        omega
      have hle : (st.scale - st.minScale) * 1000 ≤ ((0:ℤ):ℚ) :=
        Int.ceil_le.mp hceil
      push_cast at hle
      have h0 : (0:ℚ) ≤ st.scale := by linarith
      have heps : |nsOut st - st.scale| < 1/1000 := by
        have h1 : st.minScale ≤ nsOut st := le_max_right _ _
        have h2 : nsOut st ≤ st.scale := nsOut_le_scale st h0 hlo
        rw [abs_sub_comm, abs_of_nonneg (by linarith)]
        linarith
      exact ⟨0, zoomOut_fixed_of_eps st himg h0 hlo hhi heps, by
        show st.scale < st.minScale + 1/1000
        linarith⟩
  | succ k ih =>
      intro st himg hm hlo hhi hk
      have h0 : (0:ℚ) ≤ st.scale := by linarith
      by_cases heps : |nsOut st - st.scale| < 1/1000
      · exact ⟨0, zoomOut_fixed_of_eps st himg h0 hlo hhi heps,
          zoomOut_near_min_of_eps st hm hlo heps⟩
      · have hsc : (st.zoomOut).scale = nsOut st :=
          zoomOut_scale_of_step st himg h0 hlo hhi heps
        obtain ⟨hfi, hfm, hfM⟩ := zoomOut_fields st
        have hmono : nsOut st ≤ st.scale := nsOut_le_scale st h0 hlo
        have hdelta : 1/1000 ≤ st.scale - nsOut st := by
          rw [abs_sub_comm, abs_of_nonneg (by linarith)] at heps
          exact not_lt.mp heps
        have hnsm : st.minScale ≤ nsOut st := le_max_right _ _
        have hmeas : (Int.ceil ((nsOut st - st.minScale) * 1000)).toNat
            ≤ k := by
          have hq : (nsOut st - st.minScale) * 1000 ≤
              (st.scale - st.minScale) * 1000 - ((1:ℤ):ℚ) := by
            push_cast
            linarith
          have hc1 := Int.ceil_mono hq
          rw [Int.ceil_sub_int] at hc1
          omega
        have h1 : (st.zoomOut).hasImage = true := by rw [hfi]; exact himg
        have h2 : 3/500 ≤ (st.zoomOut).minScale := by rw [hfm]; exact hm
        have h3 : (st.zoomOut).minScale ≤ (st.zoomOut).scale := by
          rw [hfm, hsc]; exact hnsm
        have h4 : (st.zoomOut).scale ≤ (st.zoomOut).maxScale := by
          rw [hfM, hsc]; exact le_trans hmono hhi
        have h5 : (Int.ceil (((st.zoomOut).scale - (st.zoomOut).minScale)
            * 1000)).toNat ≤ k := by
          rw [hfm, hsc]; exact hmeas
        obtain ⟨n, hfix, hlt⟩ := ih (st.zoomOut) h1 h2 h3 h4 h5
        refine ⟨n + 1, hfix, ?_⟩
        show (iterZoomOut n (st.zoomOut)).scale < st.minScale + 1/1000
        rw [hfm] at hlt
        exact hlt

/-- Claim C5 (amended): with an image loaded and
`minScale ≤ scale ≤ maxScale` (and `minScale` at least `0.006`, amply true
of the constructor's `0.1`), one `zoomIn` never exceeds `maxScale`, never
decreases the scale, and preserves the bounds invariant — symmetrically for
`zoomOut` — and the iteration becomes stationary at a scale within `0.001`
of the respective bound.  It does not in general reach the bound exactly:
the `0.001` epsilon guard can stall the iteration strictly below
`maxScale` (see the counterexample). -/
theorem c5_zoom_bounds_and_stall (st : ImgState)
    (himg : st.hasImage = true) (hm : 3/500 ≤ st.minScale)
    (hlo : st.minScale ≤ st.scale) (hhi : st.scale ≤ st.maxScale) :
    (st.minScale ≤ (st.zoomIn).scale ∧ (st.zoomIn).scale ≤ st.maxScale ∧
      st.scale ≤ (st.zoomIn).scale) ∧
    (st.minScale ≤ (st.zoomOut).scale ∧
      (st.zoomOut).scale ≤ st.maxScale ∧
      (st.zoomOut).scale ≤ st.scale) ∧
    (∃ n, (iterZoomIn n st).zoomIn = iterZoomIn n st ∧
      st.maxScale - 1/1000 < (iterZoomIn n st).scale) ∧
    (∃ n, (iterZoomOut n st).zoomOut = iterZoomOut n st ∧
      (iterZoomOut n st).scale < st.minScale + 1/1000) := by
  have hm0 : 0 < st.minScale := lt_of_lt_of_le (by norm_num) hm
  refine ⟨zoomIn_scale_bounds st himg hm0 hlo hhi,
    zoomOut_scale_bounds st himg hm0 hlo hhi, ?_, ?_⟩
  · exact zoomIn_stabilizes_aux
      (Int.ceil ((st.maxScale - st.scale) * 1000)).toNat st himg hm hlo
      hhi (le_refl _)
  · exact zoomOut_stabilizes_aux
      (Int.ceil ((st.scale - st.minScale) * 1000)).toNat st himg hm hlo
      hhi (le_refl _)

/-- Witness for C5: the 400×300 image loaded at scale 1 on an 800×600
canvas with the constructor bounds `[0.1, 5]`. -/
theorem c5_witness :
    ((ImgState.mk true 1 0 0 400 300 400 300 (1/10) 5 800 600).minScale ≤
        ((ImgState.mk true 1 0 0 400 300 400 300
          (1/10) 5 800 600).zoomIn).scale ∧
      ((ImgState.mk true 1 0 0 400 300 400 300
          (1/10) 5 800 600).zoomIn).scale ≤
        (ImgState.mk true 1 0 0 400 300 400 300 (1/10) 5 800 600).maxScale ∧
      (ImgState.mk true 1 0 0 400 300 400 300 (1/10) 5 800 600).scale ≤
        ((ImgState.mk true 1 0 0 400 300 400 300
          (1/10) 5 800 600).zoomIn).scale) ∧
    ((ImgState.mk true 1 0 0 400 300 400 300 (1/10) 5 800 600).minScale ≤
        ((ImgState.mk true 1 0 0 400 300 400 300
          (1/10) 5 800 600).zoomOut).scale ∧
      ((ImgState.mk true 1 0 0 400 300 400 300
          (1/10) 5 800 600).zoomOut).scale ≤
        (ImgState.mk true 1 0 0 400 300 400 300 (1/10) 5 800 600).maxScale ∧
      ((ImgState.mk true 1 0 0 400 300 400 300
          (1/10) 5 800 600).zoomOut).scale ≤
        (ImgState.mk true 1 0 0 400 300 400 300 (1/10) 5 800 600).scale) ∧
    (∃ n, (iterZoomIn n (ImgState.mk true 1 0 0 400 300 400 300
        (1/10) 5 800 600)).zoomIn =
        iterZoomIn n (ImgState.mk true 1 0 0 400 300 400 300
          (1/10) 5 800 600) ∧
      (ImgState.mk true 1 0 0 400 300 400 300
        (1/10) 5 800 600).maxScale - 1/1000 <
        (iterZoomIn n (ImgState.mk true 1 0 0 400 300 400 300
          (1/10) 5 800 600)).scale) ∧
    (∃ n, (iterZoomOut n (ImgState.mk true 1 0 0 400 300 400 300
        (1/10) 5 800 600)).zoomOut =
        iterZoomOut n (ImgState.mk true 1 0 0 400 300 400 300
          (1/10) 5 800 600) ∧
      (iterZoomOut n (ImgState.mk true 1 0 0 400 300 400 300
        (1/10) 5 800 600)).scale <
        (ImgState.mk true 1 0 0 400 300 400 300
          (1/10) 5 800 600).minScale + 1/1000) :=
  c5_zoom_bounds_and_stall
    (ImgState.mk true 1 0 0 400 300 400 300 (1/10) 5 800 600) rfl
    (by with_unfolding_all decide) (by with_unfolding_all decide)
    (by with_unfolding_all decide)

/-- Claim C5 counterexample: from the in-range start scale `4.1663` with
`maxScale = 5`, one `zoomIn` lands on `4.99956`; there the next requested
scale is clamped to `5` but the change `0.00044` is under the `0.001`
epsilon, so every further `zoomIn` is a no-op: no number of `zoomIn`
applications ever makes the scale equal `maxScale`, refuting exact
convergence to `maxScale`. -/
theorem c5_counterexample :
    c5start.hasImage = true ∧
      c5start.minScale ≤ c5start.scale ∧
      c5start.scale ≤ c5start.maxScale ∧
      ¬∃ n, (iterZoomIn n c5start).scale = c5start.maxScale := by
  have hstep : c5start.zoomIn = c5next := by
    rw [zoomIn_def]
    simp only [ImgState.setScaleKeepCentered, nsIn, ImgState.clampScale,
      c5start, c5next]
    norm_num [min_def, max_def, abs]
  have hfix : c5next.zoomIn = c5next := by
    rw [zoomIn_def]
    simp only [ImgState.setScaleKeepCentered, nsIn, ImgState.clampScale,
      c5next]
    norm_num [min_def, max_def, abs]
  have hstay : ∀ n, iterZoomIn n c5next = c5next := by
    intro n
    induction n with
    | zero => rfl
    | succ k ih =>
        show iterZoomIn k c5next.zoomIn = c5next
        rw [hfix]
        exact ih
  refine ⟨rfl, by norm_num [c5start], by norm_num [c5start], ?_⟩
  rintro ⟨n, hn⟩
  cases n with
  | zero =>
      rw [show iterZoomIn 0 c5start = c5start from rfl] at hn
      norm_num [c5start] at hn
  | succ k =>
      rw [show iterZoomIn (k + 1) c5start =
          iterZoomIn k (c5start.zoomIn) from rfl, hstep, hstay k] at hn
      norm_num [c5start, c5next] at hn

/-- Witness for C7, the claim's concrete scenario: resizing a 100×100
selection at (50,50) via the `se` handle with delta (−98,−98) — a requested
2×2 rectangle — floors both dimensions to 10 while the `nw` corner stays at
(50,50), and the image clamp on a 400×300 image changes nothing. -/
theorem c7_witness :
    (applyMinSize Handle.se ⟨50, 50, 100, 100⟩
        (resizeSwitch ⟨50, 50, 100, 100⟩ Handle.se (-98) (-98))).width = 10 ∧
    (applyMinSize Handle.se ⟨50, 50, 100, 100⟩
        (resizeSwitch ⟨50, 50, 100, 100⟩ Handle.se (-98) (-98))).height = 10 ∧
    (applyMinSize Handle.se ⟨50, 50, 100, 100⟩
        (resizeSwitch ⟨50, 50, 100, 100⟩ Handle.se (-98) (-98))).x = 50 ∧
    (applyMinSize Handle.se ⟨50, 50, 100, 100⟩
        (resizeSwitch ⟨50, 50, 100, 100⟩ Handle.se (-98) (-98))).y = 50 ∧
    clampRectToImage (applyMinSize Handle.se ⟨50, 50, 100, 100⟩
        (resizeSwitch ⟨50, 50, 100, 100⟩ Handle.se (-98) (-98))) 400 300 =
      applyMinSize Handle.se ⟨50, 50, 100, 100⟩
        (resizeSwitch ⟨50, 50, 100, 100⟩ Handle.se (-98) (-98)) := by
  have h := c7_resize_floor_pin ⟨50, 50, 100, 100⟩ Handle.se (-98) (-98)
    400 300
  refine ⟨(h.1 (by with_unfolding_all decide)).1,
    (h.2.1 (by with_unfolding_all decide)).1,
    (h.1 (by with_unfolding_all decide)).2.2 rfl,
    (h.2.1 (by with_unfolding_all decide)).2.2 rfl,
    h.2.2 (by with_unfolding_all decide) (by with_unfolding_all decide)
      (by with_unfolding_all decide) (by with_unfolding_all decide)⟩

end ImageSeg
